import Mathlib

/-!
Verification of the batch-get core of the `wewerewondering` server
(`src/server/src/questions.rs`): the `Backend::questions` operation with its
two variants (DynamoDB remote adapter and in-process local mock) and the
result-consuming HTTP handler `questions`.

The embedding is shallow: DynamoDB wire structures (`AttributeValue`,
`KeysAndAttributes`, `BatchGetItemOutput`) become Lean structures, hash maps
become association lists, the mutex-guarded `Local` state is threaded
explicitly, and the remote DynamoDB client is a function parameter from the
built request to a result.
-/

set_option autoImplicit false

namespace WWW

/-- DynamoDB attribute values, as in `aws_sdk_dynamodb::model::AttributeValue`.
Only the variants the program touches are modelled: `S` (string), `N`
(number-as-string), plus `bool`/`null` standing in for every other variant so
that wrong-typed data is expressible. -/
inductive AttributeValue where
  | S : String → AttributeValue
  | N : String → AttributeValue
  | bool : Bool → AttributeValue
  | null : AttributeValue
  deriving DecidableEq, Repr

/-- `AttributeValue::as_s`: succeeds exactly on the `S` variant. -/
def asS : AttributeValue → Option String
  | .S s => some s
  | _ => none

/-- `AttributeValue::as_n`: succeeds exactly on the `N` variant. -/
def asN : AttributeValue → Option String
  | .N s => some s
  | _ => none

/-- Uuids are identified with their canonical string rendering; the code only
ever compares them for equality and calls `to_string`. -/
abbrev Uuid := String

/-- A stored or returned record: `HashMap<String, AttributeValue>` as an
association list with the usual first-match lookup. -/
abbrev Record := List (String × AttributeValue)

/-- The questions table of the mock: `HashMap<Uuid, HashMap<String, AttributeValue>>`. -/
abbrev Table := List (Uuid × Record)

/-- First-match association-list lookup, modelling `HashMap::get`. -/
def alookup {κ α : Type} [DecidableEq κ] (k : κ) : List (κ × α) → Option α
  | [] => none
  | (k', v) :: t => if k' = k then some v else alookup k t

/-- `HashMap::contains_key` on the questions table. -/
def containsKey (questions : Table) (qid : Uuid) : Bool :=
  (alookup qid questions).isSome

/-- The one-entry key tuple `HashMap::from_iter([("id", AttributeValue::S(qid.to_string()))])`
built for each requested id (both adapters build the same shape). -/
def keyTuple (qid : Uuid) : Record :=
  [("id", AttributeValue.S qid)]

/-- `aws_sdk_dynamodb::model::KeysAndAttributes` (the fields the program sets). -/
structure KeysAndAttributes where
  keys : Option (List Record)
  projectionExpression : Option String
  expressionAttributeNames : List (String × String)
  deriving DecidableEq, Repr

/-- `aws_sdk_dynamodb::output::BatchGetItemOutput` (the fields the program
sets and reads): `responses` and `unprocessed_keys`, both optional maps keyed
by table name. -/
structure BatchGetItemOutput where
  responses : Option (List (String × List Record))
  unprocessedKeys : Option (List (String × KeysAndAttributes))
  deriving DecidableEq, Repr

/-- The single batch-get request the remote adapter issues:
`batch_get_item().request_items(tableName, keysAndAttributes)`. -/
structure BatchGetItemInput where
  tableName : String
  requestItems : KeysAndAttributes
  deriving DecidableEq, Repr

/-- Transport/store-level failure of the remote call
(`SdkError<BatchGetItemError>`); its shape is irrelevant to the claims. -/
inductive SdkError where
  | unavailable : SdkError
  deriving DecidableEq, Repr

/-- The record filter in the local mock:
`.filter(|&(k, _)| matches!(*k, "id" | "text" | "when"))`. -/
def filterRecord (r : Record) : Record :=
  r.filter (fun kv => kv.1 == "id" || kv.1 == "text" || kv.1 == "when")

/-- The `Self::Local` branch of `Backend::questions`, as a pure function of
the `questions` table it reads under the lock:
partition requested ids by presence, build `unprocessed_keys` only when some
id is absent, and return the records of the present ids filtered to
`id`/`text`/`when` under `responses["questions"]`. -/
def localQuestions (questions : Table) (qids : List Uuid) : BatchGetItemOutput :=
  let unprocessedKeys := (qids.filter (fun qid => !(containsKey questions qid))).map keyTuple
  let unprocessed : Option (List (String × KeysAndAttributes)) :=
    if unprocessedKeys.isEmpty then
      none
    else
      some [("questions",
        { keys := some unprocessedKeys
          projectionExpression := some "text,when"
          expressionAttributeNames := [] })]
  { unprocessedKeys := unprocessed
    responses := some [("questions",
      qids.filterMap (fun qid => (alookup qid questions).map filterRecord))] }

/-- The shared `Local` state behind the mutex. Besides `questions` it holds
further fields (events, secrets, ...) written by collaborator operations
outside this file; they are abstracted as `rest : ρ`. -/
structure Local (ρ : Type) where
  questions : Table
  rest : ρ

/-- The `Self::Local` branch with the state threaded explicitly: the Rust code
takes the mutex, destructures `Local { questions, .. }`, and performs only
reads (`contains_key`, `get`, iteration) before releasing the lock, so the
state handed back is the one received. -/
def localQuestionsSt {ρ : Type} (st : Local ρ) (qids : List Uuid) :
    Except SdkError BatchGetItemOutput × Local ρ :=
  (Except.ok (localQuestions st.questions qids), st)

/-- The `Self::Dynamo` branch of `Backend::questions`, with the SDK client
abstracted as `send`: build one key tuple per requested id, issue exactly one
`batch_get_item` against table `"questions"` with projection
`"id,#text,#when"` and attribute-name aliases `#text -> text`,
`#when -> when`, and return the result of the client unmodified. -/
def dynamoQuestions (send : BatchGetItemInput → Except SdkError BatchGetItemOutput)
    (qids : List Uuid) : Except SdkError BatchGetItemOutput :=
  send
    { tableName := "questions"
      requestItems :=
        { keys := some (qids.map keyTuple)
          projectionExpression := some "id,#text,#when"
          expressionAttributeNames := [("#text", "text"), ("#when", "when")] } }

/-- The `Backend` enum: a DynamoDB client or the mutex-guarded local state. -/
inductive Backend (ρ : Type) where
  | dynamo (send : BatchGetItemInput → Except SdkError BatchGetItemOutput)
  | localBackend (st : Local ρ)

/-- `Backend::questions`: dispatch to whichever variant the backend was
constructed with, threading the local state (the dynamo variant holds no
mutable state of its own). -/
def Backend.questions {ρ : Type} : Backend ρ → List Uuid →
    Except SdkError BatchGetItemOutput × Backend ρ
  | .dynamo send, qids => (dynamoQuestions send qids, .dynamo send)
  | .localBackend st, qids =>
      ((localQuestionsSt st qids).1, .localBackend (localQuestionsSt st qids).2)

/-- Splitting a projection expression at commas (the semantics of the comma-
separated `projection_expression` strings the program builds). -/
def splitComma (cs : List Char) : List (List Char) :=
  cs.foldr
    (fun c acc =>
      if c = ',' then [] :: acc
      else
        match acc with
        | [] => [[c]]
        | h :: t => (c :: h) :: t)
    [[]]

/-- The attribute names selected by a projection-expression string. -/
def projectionList (s : String) : List String :=
  (splitComma s.data).map (fun cs => String.mk cs)

/-- Resolving a projection-expression token through the
`expression_attribute_names` aliases: an aliased token maps to its target,
any other token names the attribute directly. -/
def resolveAttributeName (names : List (String × String)) (s : String) : String :=
  (alookup s names).getD s

/-- HTTP status codes the handler returns. -/
inductive StatusCode where
  | badRequest : StatusCode
  | notFound : StatusCode
  | internalServerError : StatusCode
  deriving DecidableEq, Repr

/-- The JSON values the handler builds. -/
inductive Json where
  | str : String → Json
  | num : Nat → Json
  | obj : List (String × Json) → Json

/-- Rust `str::parse::<usize>()` on a 64-bit target: optional leading `+`,
then at least one ASCII digit, failing on overflow past `usize::MAX`. -/
def parseUsize (s : String) : Option Nat :=
  let digits := if s.startsWith "+" then (s.drop 1).data else s.data
  if digits.isEmpty then none
  else if digits.all Char.isDigit then
    let n := digits.foldl (fun acc c => acc * 10 + (c.toNat - 48)) 0
    if n < 2 ^ 64 then some n else none
  else none

/-- The per-record decode step inside the handler `questions` (lines 128-151):
pull `id` as a uuid-parseable string, `text` as a string, `when` as a
numeric string parseable as `usize`; any miss is the hard failure
`INTERNAL_SERVER_ERROR`. The uuid parser of the external `uuid` crate is a
parameter returning the canonical rendering of the parsed id. -/
def decodeQuestion (parseUuid : String → Option String) (q : Record) :
    Except StatusCode (String × Json) :=
  let qid := ((alookup "id" q).bind asS).bind parseUuid
  let text := (alookup "text" q).bind asS
  let w := ((alookup "when" q).bind asN).bind parseUsize
  match qid, text, w with
  | some qid, some text, some w =>
      Except.ok (qid, Json.obj [("text", Json.str text), ("when", Json.num w)])
  | _, _, _ => Except.error StatusCode.internalServerError

/-- Rust `collect::<Result<_, _>>()`: evaluate left to right, stopping at
the first error. -/
def collectExcept {α β ε : Type} (f : α → Except ε β) : List α → Except ε (List β)
  | [] => Except.ok []
  | a :: l =>
    match f a with
    | Except.error e => Except.error e
    | Except.ok b =>
      match collectExcept f l with
      | Except.error e => Except.error e
      | Except.ok bs => Except.ok (b :: bs)

/-- The result-consumption part of the handler `questions` (lines 111-153),
applied to the backend result: a failed call is `INTERNAL_SERVER_ERROR`; an
absent or empty `responses` map is `NOT_FOUND`; a non-empty map without the
`"questions"` entry is `INTERNAL_SERVER_ERROR`; otherwise every returned
record is decoded, the first decode failure aborting the whole response. -/
def handleQuestionsOutput (parseUuid : String → Option String)
    (v : Except SdkError BatchGetItemOutput) :
    Except StatusCode (List (String × Json)) :=
  match v with
  | Except.error _ => Except.error StatusCode.internalServerError
  | Except.ok out =>
    match out.responses with
    | none => Except.error StatusCode.notFound
    | some r =>
      if r.isEmpty then Except.error StatusCode.notFound
      else
        match alookup "questions" r with
        | none => Except.error StatusCode.internalServerError
        | some t => collectExcept (decodeQuestion parseUuid) t

/-- The found-records list of a result: `responses["questions"]`, empty when
the map or entry is missing. -/
def responsesQ (out : BatchGetItemOutput) : List Record :=
  match out.responses with
  | none => []
  | some r => (alookup "questions" r).getD []

/-- The residual key list of a result: `unprocessed_keys["questions"].keys`,
empty when any layer is missing. -/
def unprocessedList (out : BatchGetItemOutput) : List Record :=
  match out.unprocessedKeys with
  | none => []
  | some m =>
    match alookup "questions" m with
    | none => []
    | some ka => ka.keys.getD []

/-! Concrete sample data shared by the witnesses and counterexamples. -/

/-- A well-formed stored record. -/
def recA : Record :=
  [("id", AttributeValue.S "a"), ("text", AttributeValue.S "hello world"),
   ("when", AttributeValue.N "1"), ("who", AttributeValue.S "owner")]

/-- A malformed stored record: carries only `text`. -/
def recBad : Record :=
  [("text", AttributeValue.S "hi")]

/-- A sample table keying `"a"` to the well-formed record. -/
def exTable : Table := [("a", recA)]

/-! Helper lemmas shared by several claims. -/

theorem keyTuple_injective (a b : Uuid) (h : keyTuple a = keyTuple b) : a = b := by
  simpa [keyTuple] using h

theorem responsesQ_localQuestions (t : Table) (qids : List Uuid) :
    responsesQ (localQuestions t qids)
      = qids.filterMap (fun q => (alookup q t).map filterRecord) := by
  simp [responsesQ, localQuestions, alookup]

theorem unprocessedList_localQuestions (t : Table) (qids : List Uuid) :
    unprocessedList (localQuestions t qids)
      = (qids.filter (fun q => !(containsKey t q))).map keyTuple := by
  by_cases h : ((qids.filter (fun q => !(containsKey t q))).map keyTuple).isEmpty
  · rw [List.isEmpty_iff] at h
    simp [unprocessedList, localQuestions, h]
  · simp only [localQuestions, unprocessedList]
    rw [if_neg h]
    simp [alookup]

theorem length_filter_add_length_filter_not {α : Type} (l : List α) (p : α → Bool) :
    (l.filter p).length + (l.filter (fun a => !(p a))).length = l.length := by
  induction l with
  | nil => rfl
  | cons a l ih =>
    cases h : p a <;> simp [List.filter_cons, h] <;> omega

theorem length_filterMap_lookup (t : Table) (qids : List Uuid) :
    (qids.filterMap (fun q => (alookup q t).map filterRecord)).length
      = (qids.filter (fun q => containsKey t q)).length := by
  induction qids with
  | nil => rfl
  | cons a l ih =>
    rw [List.filterMap_cons, List.filter_cons]
    cases h : alookup a t <;> simp [containsKey, h, ih]

theorem isEmpty_unprocessed_iff (t : Table) (qids : List Uuid) :
    ((qids.filter (fun q => !(containsKey t q))).map keyTuple).isEmpty = true
      ↔ ∀ q ∈ qids, containsKey t q = true := by
  rw [List.isEmpty_iff, List.map_eq_nil_iff, List.filter_eq_nil_iff]
  constructor
  · intro h q hq
    have := h q hq
    simpa using this
  · intro h q hq
    simp [h q hq]

theorem alookup_eq_none_of_not_contains (t : Table) (q : Uuid)
    (h : containsKey t q = false) : alookup q t = none := by
  unfold containsKey at h
  cases hx : alookup q t
  · rfl
  · rw [hx] at h
    simp at h

theorem alookup_filterRecord (k : String)
    (hk : k = "id" ∨ k = "text" ∨ k = "when") (r : Record) :
    alookup k (filterRecord r) = alookup k r := by
  induction r with
  | nil => rfl
  | cons kv r ih =>
    obtain ⟨k1, v⟩ := kv
    by_cases h2 : (k1 == "id" || k1 == "text" || k1 == "when") = true
    · have hstep : filterRecord ((k1, v) :: r) = (k1, v) :: filterRecord r := by
        simp only [filterRecord, List.filter_cons]
        rw [if_pos h2]
      rw [hstep]
      by_cases h1 : k1 = k
      · simp [alookup, h1]
      · simp [alookup, h1, ih]
    · have hne : k1 ≠ k := by
        intro h1
        subst h1
        rcases hk with h | h | h <;> simp [h] at h2
      have hstep : filterRecord ((k1, v) :: r) = filterRecord r := by
        simp only [filterRecord, List.filter_cons]
        rw [if_neg h2]
      rw [hstep, ih]
      simp [alookup, hne]

/-- C1: for a request of N ids (duplicates per occurrence), the found list
and the residual key list partition the occurrences: their lengths sum to N,
present occurrences contribute to `responses` and never to
`unprocessedKeys`, absent occurrences the other way around. -/
theorem c1_partition (t : Table) (qids : List Uuid) :
    (responsesQ (localQuestions t qids)).length
        = (qids.filter (fun q => containsKey t q)).length
    ∧ unprocessedList (localQuestions t qids)
        = (qids.filter (fun q => !(containsKey t q))).map keyTuple
    ∧ (responsesQ (localQuestions t qids)).length
        + (unprocessedList (localQuestions t qids)).length = qids.length
    ∧ ∀ q ∈ qids,
        (containsKey t q = true
            ∧ keyTuple q ∉ unprocessedList (localQuestions t qids))
        ∨ (containsKey t q = false
            ∧ keyTuple q ∈ unprocessedList (localQuestions t qids)) := by
  have hu := unprocessedList_localQuestions t qids
  have hlen : (responsesQ (localQuestions t qids)).length
      = (qids.filter (fun q => containsKey t q)).length := by
    rw [responsesQ_localQuestions, length_filterMap_lookup]
  refine ⟨hlen, hu, ?_, ?_⟩
  · rw [hlen, hu, List.length_map]
    exact length_filter_add_length_filter_not qids _
  · intro q hq
    cases h : containsKey t q
    · right
      refine ⟨rfl, ?_⟩
      rw [hu]
      exact List.mem_map_of_mem keyTuple (List.mem_filter.mpr ⟨hq, by simp [h]⟩)
    · left
      refine ⟨rfl, ?_⟩
      rw [hu]
      intro hmem
      obtain ⟨x, hx, hxe⟩ := List.mem_map.mp hmem
      have hxq := keyTuple_injective x q hxe
      subst hxq
      have hx2 := (List.mem_filter.mp hx).2
      simp [h] at hx2

/-- Witness for C1 at a concrete mixed batch: in the request `["a", "b"]`
against a table keying only `"a"`, the present occurrence `"a"` stays out of
the residual keys while the lengths partition the request. -/
theorem c1_partition_witness :
    (containsKey exTable "a" = true
        ∧ keyTuple "a" ∉ unprocessedList (localQuestions exTable ["a", "b"]))
    ∨ (containsKey exTable "a" = false
        ∧ keyTuple "a" ∈ unprocessedList (localQuestions exTable ["a", "b"])) :=
  (c1_partition exTable ["a", "b"]).2.2.2 "a" (by decide)

/-- C2: `unprocessedKeys` is present in the result of the local mock iff at least
one requested id is not keyed in the table; when every requested id is
present it is `none`, never an empty-but-present mapping. -/
theorem c2_unprocessed_iff (t : Table) (qids : List Uuid) :
    ((localQuestions t qids).unprocessedKeys ≠ none
        ↔ ∃ q ∈ qids, containsKey t q = false)
    ∧ ((∀ q ∈ qids, containsKey t q = true) →
        (localQuestions t qids).unprocessedKeys = none) := by
  by_cases h : ((qids.filter (fun q => !(containsKey t q))).map keyTuple).isEmpty
  · have hall := (isEmpty_unprocessed_iff t qids).mp h
    have hnone : (localQuestions t qids).unprocessedKeys = none := by
      simp only [localQuestions]
      rw [if_pos h]
    refine ⟨⟨fun hne => absurd hnone hne, fun ⟨q, hq, hc⟩ => ?_⟩, fun _ => hnone⟩
    rw [hall q hq] at hc
    exact absurd hc (by simp)
  · have hsome : (localQuestions t qids).unprocessedKeys ≠ none := by
      simp only [localQuestions]
      rw [if_neg h]
      simp
    have hne : (qids.filter (fun q => !(containsKey t q))) ≠ [] := by
      intro hnil
      exact h (by simp [hnil])
    obtain ⟨q, hq⟩ := List.exists_mem_of_ne_nil _ hne
    rw [List.mem_filter] at hq
    refine ⟨⟨fun _ => ⟨q, hq.1, by simpa using hq.2⟩, fun _ => hsome⟩,
      fun hall => absurd ((isEmpty_unprocessed_iff t qids).mpr hall) h⟩

/-- Witness for C2 at a concrete mixed batch: id `"a"` is stored, `"b"` is
not, so `unprocessedKeys` is present; and on the fully-present batch `["a"]`
it is omitted. -/
theorem c2_unprocessed_iff_witness :
    (localQuestions exTable ["a", "b"]).unprocessedKeys ≠ none
    ∧ (localQuestions exTable ["a"]).unprocessedKeys = none := by
  constructor
  · exact (c2_unprocessed_iff exTable ["a", "b"]).1.mpr ⟨"b", by decide, by decide⟩
  · exact (c2_unprocessed_iff exTable ["a"]).2 (by decide)

/-- C5: the remote adapter issues exactly one batch-get request, built from
one key tuple per requested id in order, against the table `"questions"`,
whose projection resolves through the `#text`/`#when` aliases to exactly the
attributes `id`, `text`, `when`; the result of the client is returned unmodified. -/
theorem c5_remote_request (send : BatchGetItemInput → Except SdkError BatchGetItemOutput)
    (qids : List Uuid) :
    ∃ inp : BatchGetItemInput,
      dynamoQuestions send qids = send inp
      ∧ inp.tableName = "questions"
      ∧ inp.requestItems.keys = some (qids.map keyTuple)
      ∧ (∀ q : Uuid, keyTuple q = [("id", AttributeValue.S q)])
      ∧ inp.requestItems.projectionExpression = some "id,#text,#when"
      ∧ (projectionList "id,#text,#when").map
          (resolveAttributeName inp.requestItems.expressionAttributeNames)
        = ["id", "text", "when"] := by
  refine ⟨_, rfl, rfl, rfl, fun q => rfl, rfl, ?_⟩
  show (projectionList "id,#text,#when").map
      (resolveAttributeName [("#text", "text"), ("#when", "when")])
    = ["id", "text", "when"]
  decide

/-- C6: the local mock never fails: for every state and every request the
result is `Ok`, however many requested ids are absent. -/
theorem c6_local_always_ok {ρ : Type} (st : Local ρ) (qids : List Uuid) :
    ∃ out : BatchGetItemOutput,
      (Backend.questions (Backend.localBackend st) qids).1 = Except.ok out :=
  ⟨localQuestions st.questions qids, rfl⟩

/-- C3 counterexample: with the table keying `"a"` to a record holding only
`text`, every requested id of `["a"]` is keyed, yet the single returned
record is `[("text", S "hi")]`, which does not carry the fields `id` and
`when` — so the returned record does not carry exactly `id`/`text`/`when`. -/
theorem c3_counterexample :
    (∀ q ∈ (["a"] : List Uuid), containsKey [("a", recBad)] q = true)
    ∧ responsesQ (localQuestions [("a", recBad)] ["a"])
        = [[("text", AttributeValue.S "hi")]]
    ∧ ¬ (∀ r ∈ responsesQ (localQuestions [("a", recBad)] ["a"]),
          (alookup "id" r).isSome = true ∧ (alookup "when" r).isSome = true) := by
  refine ⟨by decide, by decide, ?_⟩
  intro hall
  have h := hall [("text", AttributeValue.S "hi")] (by decide)
  revert h
  decide

/-- C3 (amended): when every requested id is keyed, `unprocessedKeys` is
omitted and every occurrence is answered; each returned record is the stored
record filtered to the fields `id`/`text`/`when` — it carries no field
outside these three, agrees with the stored record on each of them, and so
carries exactly the three fields whenever the stored record does. -/
theorem c3_all_present (t : Table) (qids : List Uuid)
    (h : ∀ q ∈ qids, containsKey t q = true) :
    (localQuestions t qids).unprocessedKeys = none
    ∧ (responsesQ (localQuestions t qids)).length = qids.length
    ∧ (∀ q r, q ∈ qids → alookup q t = some r →
        filterRecord r ∈ responsesQ (localQuestions t qids))
    ∧ (∀ r ∈ responsesQ (localQuestions t qids), ∀ kv ∈ r,
        kv.1 = "id" ∨ kv.1 = "text" ∨ kv.1 = "when")
    ∧ (∀ r : Record, ∀ k, (k = "id" ∨ k = "text" ∨ k = "when") →
        alookup k (filterRecord r) = alookup k r) := by
  refine ⟨?_, ?_, ?_, ?_, fun r k hk => alookup_filterRecord k hk r⟩
  · simp only [localQuestions]
    rw [if_pos ((isEmpty_unprocessed_iff t qids).mpr h)]
  · rw [responsesQ_localQuestions, length_filterMap_lookup]
    congr 1
    rw [List.filter_eq_self]
    exact h
  · intro q r hq hr
    rw [responsesQ_localQuestions]
    exact List.mem_filterMap.mpr ⟨q, hq, by rw [hr]; rfl⟩
  · intro r hr kv hkv
    rw [responsesQ_localQuestions] at hr
    obtain ⟨q, _, hq2⟩ := List.mem_filterMap.mp hr
    obtain ⟨r0, _, hr0⟩ := Option.map_eq_some'.mp hq2
    subst hr0
    have h3 : (kv.1 = "id" ∨ kv.1 = "text") ∨ kv.1 = "when" := by
      simpa using (List.mem_filter.mp hkv).2
    exact or_assoc.mp h3

/-- Witness for C3 (amended) on the fully present batch `["a"]`: no residual
keys and one answer per occurrence. -/
theorem c3_all_present_witness :
    (localQuestions exTable ["a"]).unprocessedKeys = none
    ∧ (responsesQ (localQuestions exTable ["a"])).length
        = (["a"] : List Uuid).length :=
  ⟨(c3_all_present exTable ["a"] (by decide)).1,
   (c3_all_present exTable ["a"] (by decide)).2.1⟩

theorem alookup_cons_ne {κ α : Type} [DecidableEq κ] (k k' : κ) (v : α)
    (t : List (κ × α)) (h : k' ≠ k) : alookup k ((k', v) :: t) = alookup k t := by
  simp [alookup, h]

theorem count_map_keyTuple (q : Uuid) (l : List Uuid) :
    (l.map keyTuple).count (keyTuple q) = l.count q := by
  induction l with
  | nil => rfl
  | cons a l ih =>
    rw [List.map_cons, List.count_cons, List.count_cons, ih]
    congr 1
    by_cases h : a = q
    · subst h
      simp
    · have hne : ¬ keyTuple a = keyTuple q := fun hc => h (keyTuple_injective a q hc)
      simp [h, hne]

theorem filterMap_lookup_erase_absent (t : Table) (q : Uuid)
    (hq : alookup q t = none) (qids : List Uuid) :
    qids.filterMap (fun x => (alookup x t).map filterRecord)
      = (qids.filter (fun x => !(x == q))).filterMap
          (fun x => (alookup x t).map filterRecord) := by
  induction qids with
  | nil => rfl
  | cons a l ih =>
    by_cases h : a = q
    · subst h
      simp [List.filterMap_cons, List.filter_cons, hq, ih]
    · simp [List.filterMap_cons, List.filter_cons, h, ih]

/-- C4: each absent requested id yields, per occurrence, the one-entry key
tuple `[("id", S qid)]` in `unprocessedKeys["questions"].keys` and never an
answer in `responses` (erasing its occurrences leaves `responses`
unchanged); the projection expression of the residual entry is exactly
`"text,when"`, selecting `text` and `when` but not `id`. -/
theorem c4_absent (t : Table) (qids : List Uuid) (q : Uuid)
    (h1 : q ∈ qids) (h2 : containsKey t q = false) :
    keyTuple q = [("id", AttributeValue.S q)]
    ∧ keyTuple q ∈ unprocessedList (localQuestions t qids)
    ∧ (unprocessedList (localQuestions t qids)).count (keyTuple q)
        = qids.count q
    ∧ responsesQ (localQuestions t qids)
        = responsesQ (localQuestions t (qids.filter (fun x => !(x == q))))
    ∧ (∃ ka : KeysAndAttributes,
        (localQuestions t qids).unprocessedKeys = some [("questions", ka)]
        ∧ ka.projectionExpression = some "text,when"
        ∧ projectionList "text,when" = ["text", "when"]
        ∧ "id" ∉ projectionList "text,when") := by
  have hu := unprocessedList_localQuestions t qids
  refine ⟨rfl, ?_, ?_, ?_, ?_⟩
  · rw [hu]
    exact List.mem_map_of_mem keyTuple (List.mem_filter.mpr ⟨h1, by simp [h2]⟩)
  · rw [hu, count_map_keyTuple]
    exact List.count_filter (by simp [h2])
  · rw [responsesQ_localQuestions, responsesQ_localQuestions]
    exact filterMap_lookup_erase_absent t q (alookup_eq_none_of_not_contains t q h2) qids
  · have hne : ¬((qids.filter (fun x => !(containsKey t x))).map keyTuple).isEmpty = true := by
      intro hemp
      have hall := (isEmpty_unprocessed_iff t qids).mp hemp
      rw [hall q h1] at h2
      cases h2
    refine ⟨{ keys := some ((qids.filter (fun x => !(containsKey t x))).map keyTuple)
              projectionExpression := some "text,when"
              expressionAttributeNames := [] }, ?_, rfl, by decide, by decide⟩
    simp only [localQuestions]
    rw [if_neg hne]

/-- Witness for C4 on the mixed batch `["a", "b"]` with only `"a"` stored:
the key tuple for `"b"` shows up once in the residual keys. -/
theorem c4_absent_witness :
    keyTuple "b" ∈ unprocessedList (localQuestions exTable ["a", "b"])
    ∧ (unprocessedList (localQuestions exTable ["a", "b"])).count (keyTuple "b")
        = (["a", "b"] : List Uuid).count "b" :=
  ⟨(c4_absent exTable ["a", "b"] "b" (by decide) (by decide)).2.1,
   (c4_absent exTable ["a", "b"] "b" (by decide) (by decide)).2.2.1⟩

theorem filterMap_lookup_shadow (t : Table) (q : Uuid) (r r' : Record)
    (l : List Uuid) :
    (l.filter (fun x => !(x == q))).filterMap
        (fun x => (alookup x ((q, r) :: t)).map filterRecord)
      = (l.filter (fun x => !(x == q))).filterMap
          (fun x => (alookup x ((q, r') :: t)).map filterRecord) := by
  induction l with
  | nil => rfl
  | cons a l ih =>
    by_cases h : a = q
    · simp [List.filter_cons, h, ih]
    · have hqa : q ≠ a := fun hc => h hc.symm
      rw [List.filter_cons]
      have hcond : (!(a == q)) = true := by simp [h]
      rw [if_pos hcond, List.filterMap_cons, List.filterMap_cons,
        alookup_cons_ne a q r t hqa, alookup_cons_ne a q r' t hqa, ih]

/-- C7: partial success in the mock: a present id whose stored record is
malformed still contributes its filtered entry to `responses["questions"]`;
the entries contributed by the other requested ids do not depend on that
content of that record; and the call still returns `Ok`, so malformed-record
detection is left to the consumer. -/
theorem c7_partial_success (t : Table) (q : Uuid) (r r' : Record)
    (qids : List Uuid) (h : q ∈ qids) :
    filterRecord r ∈ responsesQ (localQuestions ((q, r) :: t) qids)
    ∧ ((qids.filter (fun x => !(x == q))).filterMap
          (fun x => (alookup x ((q, r) :: t)).map filterRecord)
        = (qids.filter (fun x => !(x == q))).filterMap
            (fun x => (alookup x ((q, r') :: t)).map filterRecord))
    ∧ (localQuestionsSt (⟨(q, r) :: t, ()⟩ : Local Unit) qids).1
        = Except.ok (localQuestions ((q, r) :: t) qids) := by
  refine ⟨?_, filterMap_lookup_shadow t q r r' qids, rfl⟩
  rw [responsesQ_localQuestions]
  exact List.mem_filterMap.mpr ⟨q, h, by simp [alookup]⟩

/-- Witness for C7: the malformed record keyed at `"b"` still shows up,
filtered, in the answers for the batch `["a", "b"]`. -/
theorem c7_partial_success_witness :
    filterRecord recBad
      ∈ responsesQ (localQuestions (("b", recBad) :: exTable) ["a", "b"]) :=
  (c7_partial_success exTable "b" recBad recA ["a", "b"] (by decide)).1

/-- C9: the local mock is read-only: the backend state after the call, and in
particular the questions table and every other field of the shared `Local`
state, equals the state before it. -/
theorem c9_read_only {ρ : Type} (st : Local ρ) (qids : List Uuid) :
    (Backend.questions (Backend.localBackend st) qids).2 = Backend.localBackend st
    ∧ (localQuestionsSt st qids).2.questions = st.questions
    ∧ (localQuestionsSt st qids).2.rest = st.rest :=
  ⟨rfl, rfl, rfl⟩

theorem decodeQuestion_error_or_ok (p : String → Option String) (q : Record) :
    decodeQuestion p q = Except.error StatusCode.internalServerError
    ∨ ∃ v, decodeQuestion p q = Except.ok v := by
  unfold decodeQuestion
  cases ((alookup "id" q).bind asS).bind p <;>
    cases (alookup "text" q).bind asS <;>
      cases ((alookup "when" q).bind asN).bind parseUsize <;>
        first
          | exact Or.inl rfl
          | exact Or.inr ⟨_, rfl⟩

theorem collectExcept_error_of_mem {α β ε : Type} (f : α → Except ε β) (e : ε)
    (hall : ∀ x, f x = Except.error e ∨ ∃ v, f x = Except.ok v)
    (l : List α) (x : α) (hx : x ∈ l) (hfx : f x = Except.error e) :
    collectExcept f l = Except.error e := by
  induction l with
  | nil => cases hx
  | cons a l ih =>
    rcases List.mem_cons.mp hx with h | h
    · subst h
      simp [collectExcept, hfx]
    · rcases hall a with ha | ⟨v, ha⟩
      · simp [collectExcept, ha]
      · simp [collectExcept, ha, ih h]

theorem collectExcept_error_or_ok {α β ε : Type} (f : α → Except ε β) (e : ε)
    (hall : ∀ x, f x = Except.error e ∨ ∃ v, f x = Except.ok v) (l : List α) :
    collectExcept f l = Except.error e
    ∨ ∃ vs, collectExcept f l = Except.ok vs := by
  induction l with
  | nil => exact Or.inr ⟨[], rfl⟩
  | cons a l ih =>
    rcases hall a with h | ⟨v, h⟩
    · left
      simp [collectExcept, h]
    · rcases ih with h2 | ⟨vs, h2⟩
      · left
        simp [collectExcept, h, h2]
      · right
        exact ⟨v :: vs, by simp [collectExcept, h, h2]⟩

/-- C8: the consumer decodes fail-closed: if any record of the returned
`responses["questions"]` list misses `id`/`text`/`when` or holds the wrong
value type (`id` not a uuid-parseable string, `text` not a string, `when` not
a `usize`-parseable numeric string), the whole consumption is the hard
failure `INTERNAL_SERVER_ERROR` — nothing is coerced, defaulted, or dropped. -/
theorem c8_fail_closed (parseUuid : String → Option String)
    (out : BatchGetItemOutput) (resp : List (String × List Record))
    (t : List Record) (q : Record)
    (hresp : out.responses = some resp)
    (ht : alookup "questions" resp = some t)
    (hq : q ∈ t)
    (hbad : ((alookup "id" q).bind asS).bind parseUuid = none
          ∨ (alookup "text" q).bind asS = none
          ∨ ((alookup "when" q).bind asN).bind parseUsize = none) :
    handleQuestionsOutput parseUuid (Except.ok out)
      = Except.error StatusCode.internalServerError := by
  have hde : decodeQuestion parseUuid q = Except.error StatusCode.internalServerError := by
    unfold decodeQuestion
    cases hqid : ((alookup "id" q).bind asS).bind parseUuid <;>
      cases htext : (alookup "text" q).bind asS <;>
        cases hw : ((alookup "when" q).bind asN).bind parseUsize <;>
          first
            | rfl
            | (exfalso; rcases hbad with hb | hb | hb <;> simp_all)
  have hne : resp.isEmpty = false := by
    cases resp with
    | nil => simp [alookup] at ht
    | cons a l => rfl
  simp only [handleQuestionsOutput, hresp, hne, ht]
  simp only [Bool.false_eq_true, if_false]
  exact collectExcept_error_of_mem _ _ (decodeQuestion_error_or_ok parseUuid) t q hq hde

/-- A batch-get result whose single returned record is malformed. -/
def exOutBad : BatchGetItemOutput :=
  { responses := some [("questions", [recBad])], unprocessedKeys := none }

/-- Witness for C8: consuming a result whose only record carries just `text`
is the hard failure, under the identity uuid parser. -/
theorem c8_fail_closed_witness :
    handleQuestionsOutput (fun s => some s) (Except.ok exOutBad)
      = Except.error StatusCode.internalServerError :=
  c8_fail_closed (fun s => some s) exOutBad [("questions", [recBad])] [recBad]
    recBad rfl (by decide) (by decide) (Or.inl (by decide))

/-- C10: the `responses` map of the local mock always holds the single entry
`"questions"` (possibly mapped to the empty list), so the outer map is never
empty and the consumer emptiness test on it never yields `NOT_FOUND`, even
for an all-absent batch. -/
theorem c10_outer_nonempty (t : Table) (qids : List Uuid)
    (parseUuid : String → Option String) :
    (localQuestions t qids).responses
      = some [("questions", qids.filterMap (fun q => (alookup q t).map filterRecord))]
    ∧ ((localQuestions t qids).responses.getD []).isEmpty = false
    ∧ handleQuestionsOutput parseUuid (Except.ok (localQuestions t qids))
        ≠ Except.error StatusCode.notFound := by
  refine ⟨rfl, rfl, ?_⟩
  have hstep : handleQuestionsOutput parseUuid (Except.ok (localQuestions t qids))
      = collectExcept (decodeQuestion parseUuid)
          (qids.filterMap (fun q => (alookup q t).map filterRecord)) := by
    simp [handleQuestionsOutput, localQuestions, alookup]
  rw [hstep]
  rcases collectExcept_error_or_ok (decodeQuestion parseUuid)
      StatusCode.internalServerError (decodeQuestion_error_or_ok parseUuid)
      (qids.filterMap (fun q => (alookup q t).map filterRecord)) with h | ⟨vs, h⟩ <;>
    rw [h] <;> simp

/-- Witness for C10 on an all-absent batch against an empty table: the
consumer does not answer `NOT_FOUND`. -/
theorem c10_outer_nonempty_witness :
    handleQuestionsOutput (fun s => some s) (Except.ok (localQuestions [] ["c"]))
      ≠ Except.error StatusCode.notFound :=
  (c10_outer_nonempty [] ["c"] (fun s => some s)).2.2

end WWW
